import Mathlib

/-!
Verification development for the damage-calculation engine of the
lol-damage-calcs repository (src/calculators/damage.py together with the
entity models in src/models/champion.py, src/models/item.py and
src/models/rune.py).

Modelling conventions:
* Python floats are embedded as rationals.  The only place where the
  code manipulates an infinite float value is the cooldown of an
  ability (`float("inf")` for a locked ability, plus `math.isinf`
  checks in `_casts_in_duration` and `calculate_sustained_dps`), so
  cooldown values live in a dedicated type `PyFloat` with both
  infinities while every other quantity is a plain rational.
* Python dicts that are only ever read through `.get` (the aggregated
  stat map, a champion `base_stats` mapping) are embedded as total
  functions `String -> Rat` with default value 0; dicts that are
  iterated (item/rune `stats`, ability `scalings`, passive `scaling`)
  are embedded as association lists.
* The loosely typed `values` mapping of `ItemPassive` is embedded as a
  record with one optional field per key that damage.py actually
  reads ("damage", "scaling", "cooldown", "damage_type", "stat",
  "multiplier", "percent", "base_damage"), `Option` encoding key
  absence so that the `.get(key, default)` calls translate to `getD`.
* Fallible operations (dict key lookup, list indexing, the
  unsupported-metric `ValueError`) are embedded in `Except CalcError`.
-/

/-- Carrier for Python float values that may be infinite.  Used for
ability cooldowns, where the source manufactures `float("inf")`. -/
inductive PyFloat where
  | fin (q : ℚ)
  | inf
  | ninf
deriving DecidableEq

/-- Python comparison `x <= 0` on a possibly infinite float. -/
def PyFloat.le0 : PyFloat → Bool
  | .fin q => decide (q ≤ 0)
  | .inf => false
  | .ninf => true

/-- Python `math.isinf`, true for both infinities. -/
def PyFloat.isInf : PyFloat → Bool
  | .fin _ => false
  | .inf => true
  | .ninf => true

/-- Underlying rational of a finite `PyFloat` (0 for the infinities;
only ever applied after finiteness has been established). -/
def PyFloat.toRat : PyFloat → ℚ
  | .fin q => q
  | .inf => 0
  | .ninf => 0

/-- Errors surfaced by the embedded computations: Python `KeyError`
(dict lookup), `IndexError` (list indexing) and `ValueError`. -/
inductive CalcError where
  | keyError (key : String)
  | indexError (msg : String)
  | valueError (msg : String)
deriving DecidableEq

/-- Python `str.lower` restricted to ASCII (all strings this code
compares case-insensitively are ASCII), as an executable character
map. -/
def pyLower (s : String) : String := String.mk (s.data.map Char.toLower)

/-- Python `str.upper` restricted to ASCII. -/
def pyUpper (s : String) : String := String.mk (s.data.map Char.toUpper)

/-- models/item.py `ItemPassive`: a type tag plus the open `values`
mapping, embedded as optional typed fields for the keys damage.py
reads.  A `none` field encodes absence of the key. -/
structure ItemPassive where
  type : String
  damage : Option ℚ := none
  scaling : List (String × ℚ) := []
  cooldown : Option ℚ := none
  damage_type : Option String := none
  stat : Option String := none
  multiplier : Option ℚ := none
  percent : Option ℚ := none
  base_damage : Option ℚ := none
deriving DecidableEq

/-- models/item.py `Item`. -/
structure Item where
  id : String
  name : String
  stats : List (String × ℚ)
  passives : List ItemPassive
deriving DecidableEq

/-- models/rune.py `Rune` (structurally identical to `Item`). -/
structure Rune where
  id : String
  name : String
  stats : List (String × ℚ)
  passives : List ItemPassive
deriving DecidableEq

/-- models/champion.py `Ability`. -/
structure Ability where
  key : String
  name : String
  base_damage : List ℚ
  scalings : List (String × ℚ)
  cooldown : List PyFloat
  max_rank : ℤ
  rank_levels : List ℤ
  damage_type : String := "magic"
  damage_window : String := "instant"
  duration : Option ℚ := none
deriving DecidableEq

/-- models/champion.py `Ability.rank_at_level`: count of unlock levels
not exceeding `level`, capped at `max_rank`. -/
def Ability.rank_at_level (a : Ability) (level : ℤ) : ℤ :=
  min ((a.rank_levels.countP (fun unlock_level => decide (unlock_level ≤ level))) : ℤ) a.max_rank

/-- models/champion.py `Ability.base_damage_at_rank`; out-of-range list
indexing raises `IndexError` as in Python. -/
def Ability.base_damage_at_rank (a : Ability) (rank : ℤ) : Except CalcError ℚ :=
  if rank ≤ 0 then .ok 0
  else
    match a.base_damage.get? (rank - 1).toNat with
    | some v => .ok v
    | none => .error (.indexError "list index out of range")

/-- models/champion.py `Ability.cooldown_at_rank`. -/
def Ability.cooldown_at_rank (a : Ability) (rank : ℤ) : Except CalcError PyFloat :=
  if rank ≤ 0 then .ok .inf
  else
    match a.cooldown.get? (rank - 1).toNat with
    | some v => .ok v
    | none => .error (.indexError "list index out of range")

/-- models/champion.py `Champion`.  `base_stats` is only read through
`.get(key, 0.0)`, so it is embedded as a total function with default
0. `abilities` is an insertion-ordered dict, embedded as an
association list (Python dicts have unique keys). -/
structure Champion where
  id : String
  name : String
  role : String
  base_stats : String → ℚ
  abilities : List (String × Ability)
  combo_sequence : List String

/-- models/champion.py `Champion.attack_damage_at`. -/
def Champion.attack_damage_at (c : Champion) (level : ℤ) : ℚ :=
  c.base_stats "attack_damage" + c.base_stats "attack_damage_per_level" * (max (level - 1) 0 : ℤ)

/-- models/champion.py `Champion.ability_power_at`. -/
def Champion.ability_power_at (c : Champion) (level : ℤ) : ℚ :=
  c.base_stats "ability_power" + c.base_stats "ability_power_per_level" * (max (level - 1) 0 : ℤ)

/-- models/champion.py `Champion.attack_speed_at` (multiplicative growth). -/
def Champion.attack_speed_at (c : Champion) (level : ℤ) : ℚ :=
  c.base_stats "attack_speed" * (1 + c.base_stats "attack_speed_per_level" * (max (level - 1) 0 : ℤ))

/-- models/champion.py `Champion.ability_haste_at`. -/
def Champion.ability_haste_at (c : Champion) (level : ℤ) : ℚ :=
  c.base_stats "ability_haste" + c.base_stats "ability_haste_per_level" * (max (level - 1) 0 : ℤ)

/-- calculators/damage.py `DamageComponents`: separate physical, magic
and true damage subtotals.  The third Python field is named `true`,
which is not a legal Lean field name. -/
structure DamageComponents where
  physical : ℚ := 0
  magic : ℚ := 0
  true_damage : ℚ := 0
deriving DecidableEq

instance : Zero DamageComponents := ⟨{}⟩

/-- calculators/damage.py `DamageComponents.__iadd__`. -/
instance : Add DamageComponents :=
  ⟨fun a b => ⟨a.physical + b.physical, a.magic + b.magic, a.true_damage + b.true_damage⟩⟩

/-- calculators/damage.py `DamageComponents.scaled`. -/
def DamageComponents.scaled (d : DamageComponents) (factor : ℚ) : DamageComponents :=
  ⟨d.physical * factor, d.magic * factor, d.true_damage * factor⟩

/-- calculators/damage.py `DamageComponents._apply_resistance`. -/
def DamageComponents.apply_resistance (amount : ℚ) (resistance : ℚ) : ℚ :=
  if amount ≤ 0 then 0
  else if 0 ≤ resistance then amount * (100 / (100 + resistance))
  else amount * (2 - 100 / (100 - resistance))

/-- calculators/damage.py `DamageComponents.scaled_total`. -/
def DamageComponents.scaled_total (d : DamageComponents) (armor : ℚ) (magic_resist : ℚ) : ℚ :=
  DamageComponents.apply_resistance d.physical armor
    + DamageComponents.apply_resistance d.magic magic_resist
    + d.true_damage

/-- The aggregated stat dict of `_aggregate_stats`, read only through
`.get(key, 0.0)`: embedded as a total function with default 0. -/
def Stats : Type := String → ℚ

/-- Dict assignment `stats[k] = v`. -/
def Stats.update (st : Stats) (k : String) (v : ℚ) : Stats :=
  fun s => if s = k then v else st s

/-- The availability dict of `calculate_burst_combo`, read through
`.get(key, False)`. -/
def Avail : Type := String → Bool

/-- Dict assignment `availability[key] = False`. -/
def Avail.setFalse (a : Avail) (k : String) : Avail :=
  fun s => if s = k then false else a s

/-- Python truthiness of `values.get("stat")` in `_aggregate_stats`:
both a missing key (`None`) and the empty string are falsy. -/
def optStrTruthy (o : Option String) : Bool :=
  o.getD "" ≠ ""

/-- Seed map of `_aggregate_stats` (step 1): the four level-derived
base values; every other key is absent, i.e. defaults to 0. -/
def seed_stats (c : Champion) (level : ℤ) : Stats :=
  fun s =>
    if s = "attack_damage" then c.attack_damage_at level
    else if s = "ability_power" then c.ability_power_at level
    else if s = "attack_speed" then c.attack_speed_at level
    else if s = "ability_haste" then c.ability_haste_at level
    else 0

/-- Inner loop of the additive phase of `_aggregate_stats`:
`for stat, value in source.stats.items(): stats[stat] = stats.get(stat, 0.0) + value`. -/
def add_source_stats (st : Stats) (source_stats : List (String × ℚ)) : Stats :=
  source_stats.foldl (fun st kv => st.update kv.1 (st kv.1 + kv.2)) st

/-- Additive phase of `_aggregate_stats`: every item then every rune
adds its stats onto the seed map. -/
def additive_stats (c : Champion) (level : ℤ) (items : List Item) (runes : List Rune) : Stats :=
  (items.map Item.stats ++ runes.map Rune.stats).foldl add_source_stats (seed_stats c level)

/-- One step of the multiplicative phase of `_aggregate_stats`: a
`stat_multiplier` passive with a truthy target stat replaces the
current value with `current * (1 + multiplier)`. -/
def apply_stat_multiplier (st : Stats) (passive : ItemPassive) : Stats :=
  if passive.type = "stat_multiplier" then
    let stat_key := passive.stat.getD ""
    let multiplier := passive.multiplier.getD 0
    if stat_key ≠ "" then st.update stat_key (st stat_key * (1 + multiplier)) else st
  else st

/-- The passives of all items then all runes, in enumeration order. -/
def all_passives (items : List Item) (runes : List Rune) : List ItemPassive :=
  (items.map Item.passives).flatten ++ (runes.map Rune.passives).flatten

/-- calculators/damage.py `DamageCalculator._aggregate_stats`:
additive phase over all sources, then the `stat_multiplier` passives
of all items then all runes applied in enumeration order. -/
def aggregate_stats (c : Champion) (level : ℤ) (items : List Item) (runes : List Rune) : Stats :=
  (all_passives items runes).foldl apply_stat_multiplier (additive_stats c level items runes)

/-- calculators/damage.py `DamageCalculator._collect_passives`: keys
are built from the origin tag, the entity id and the passive index
(`f"item:{item.id}:{index}"` style). -/
def collect_passives (items : List Item) (runes : List Rune) : List (String × ItemPassive) :=
  (items.map (fun item =>
      item.passives.enum.map (fun ip => ("item:" ++ item.id ++ ":" ++ toString ip.1, ip.2)))).flatten
    ++ (runes.map (fun rune =>
      rune.passives.enum.map (fun ip => ("rune:" ++ rune.id ++ ":" ++ toString ip.1, ip.2)))).flatten

/-- calculators/damage.py `DamageCalculator._ability_damage` (may
raise `IndexError` through `base_damage_at_rank`). -/
def ability_damage (a : Ability) (stats : Stats) (rank : ℤ) : Except CalcError DamageComponents := do
  let base_damage ← a.base_damage_at_rank rank
  let scaling_damage := (a.scalings.map (fun kv => stats kv.1 * kv.2)).sum
  let total := base_damage + scaling_damage
  let dt := pyLower a.damage_type
  pure (if dt = "physical" then { physical := total }
    else if dt = "true" then { true_damage := total }
    else { magic := total })

/-- Damage-type resolution for on-hit passives in
`_auto_attack_damage`: `values.get("damage_type") or fallback`, where
the fallback maps the passive type name and Python `or` skips both a
missing key and an empty string. -/
def on_hit_damage_type (passive : ItemPassive) : String :=
  let fallback :=
    if passive.type = "on_hit_magic_damage" then "magic"
    else if passive.type = "on_hit_true_damage" then "true"
    else if passive.type = "on_hit_physical_damage" then "physical"
    else "magic"
  match passive.damage_type with
  | some s => if s ≠ "" then s else fallback
  | none => fallback

/-- calculators/damage.py `DamageCalculator._auto_attack_damage`.  The
`isinstance(scaling, Mapping)` guard is always satisfied in the
embedding because `scaling` is a mapping by construction. -/
def auto_attack_damage (stats : Stats) (passives : List (String × ItemPassive)) : DamageComponents :=
  passives.foldl
    (fun acc kp =>
      let passive := kp.2
      if passive.type.startsWith "on_hit" then
        let extra := passive.base_damage.getD 0
          + (passive.scaling.map (fun kv => stats kv.1 * kv.2)).sum
        let dt := on_hit_damage_type passive
        if dt = "physical" then { acc with physical := acc.physical + extra }
        else if dt = "true" then { acc with true_damage := acc.true_damage + extra }
        else { acc with magic := acc.magic + extra }
      else acc)
    { physical := stats "attack_damage", magic := 0, true_damage := 0 }

/-- calculators/damage.py `DamageCalculator._passive_spell_burst_damage`. -/
def passive_spell_burst_damage (passive : ItemPassive) (stats : Stats) : ℚ :=
  passive.damage.getD 0 + (passive.scaling.map (fun kv => stats kv.1 * kv.2)).sum

/-- calculators/damage.py `DamageCalculator._components_for_damage`. -/
def components_for_damage (amount : ℚ) (damage_type : String) : DamageComponents :=
  if amount ≤ 0 then 0
  else
    let dtype := pyLower damage_type
    if dtype = "physical" then { physical := amount }
    else if dtype = "true" then { true_damage := amount }
    else { magic := amount }

/-- The epsilon `1e-9` of `_casts_in_duration`. -/
def epsQ : ℚ := 1 / 1000000000

/-- calculators/damage.py `DamageCalculator._casts_in_duration`,
mirroring the order of the Python branches (`cooldown <= 0` first,
then `math.isinf(cooldown)`, then `duration <= 0`).  Python `int`
truncation equals the floor here because both truncated quantities
are evaluated with a positive duration. -/
def casts_in_duration (cooldown : PyFloat) (duration : ℚ) : ℤ :=
  if cooldown.le0 then
    if duration ≤ 0 then 0 else max 1 ⌊duration * 10⌋
  else if cooldown.isInf then 0
  else if duration ≤ 0 then 0
  else max 1 (⌊(duration - epsQ) / cooldown.toRat⌋ + 1)

/-- calculators/damage.py `DamageCalculator._apply_ability_haste`
(only ever called on a finite base cooldown, after the `isinf`
check in `calculate_sustained_dps`). -/
def apply_ability_haste (base_cooldown : ℚ) (ability_haste : ℚ) : ℚ :=
  if ability_haste ≤ 0 then base_cooldown
  else base_cooldown / (1 + ability_haste / 100)

/-- State threaded through the `calculate_burst_combo` action loop:
the running damage totals, the mutable `spell_burst_available` dict,
and (as observable bookkeeping of the `availability[key] = False`
assignments) the list of source keys consumed so far, in order. -/
structure BurstState where
  totals : DamageComponents
  avail : Avail
  fired : List String

/-- calculators/damage.py `DamageCalculator._burst_passive_damage`:
walks the passive sources; a `spell_burst` passive whose key is still
available contributes once and consumes its availability flag (the
returned list records exactly the keys consumed by this call, in
order); a `dot_percent_max_health` passive contributes every call.
The loop body is the named `burst_passive_step`; the `ability`
parameter of the Python method is accepted but unused. -/
def burst_passive_step (stats : Stats) (target_health : ℚ)
    (acc : DamageComponents × Avail × List String) (kp : String × ItemPassive) :
    DamageComponents × Avail × List String :=
  let (bonus, avail, fired) := acc
  let (key, passive) := kp
  if passive.type = "spell_burst" && avail key then
    let amount := passive_spell_burst_damage passive stats
    let damage_type := passive.damage_type.getD "magic"
    (bonus + components_for_damage amount damage_type, avail.setFalse key, fired ++ [key])
  else if passive.type = "dot_percent_max_health" then
    let amount := passive.percent.getD 0 * target_health
    let damage_type := passive.damage_type.getD "magic"
    (bonus + components_for_damage amount damage_type, avail, fired)
  else acc

def burst_passive_damage (passives : List (String × ItemPassive)) (stats : Stats)
    (target_health : ℚ) (ability : Ability) (avail : Avail) :
    DamageComponents × Avail × List String :=
  passives.foldl (burst_passive_step stats target_health) (0, avail, [])

/-- The initial `spell_burst_available` dict of `calculate_burst_combo`
(`{key: True for key, passive in passive_sources if passive.type ==
"spell_burst"}`, read back through `.get(key, False)`). -/
def initial_avail (passive_sources : List (String × ItemPassive)) : Avail :=
  fun k => passive_sources.any (fun kp => kp.1 = k && kp.2.type = "spell_burst")

/-- One iteration of the `for action in sequence` loop of
`calculate_burst_combo`.  An `"AA"` token (case-insensitively) adds an
auto attack; any other token looks the ability up in the champion
ability dict — raising `KeyError` when absent, before the rank check —
then skips on rank `<= 0`, else adds ability damage and burst passive
damage. -/
def burst_step (c : Champion) (level : ℤ) (stats : Stats) (target : ℚ)
    (passive_sources : List (String × ItemPassive)) (st : BurstState) (action : String) :
    Except CalcError BurstState :=
  if pyUpper action = "AA" then
    .ok { st with totals := st.totals + auto_attack_damage stats passive_sources }
  else
    match c.abilities.lookup action with
    | none => .error (.keyError action)
    | some ability =>
      if ability.rank_at_level level ≤ 0 then .ok st
      else do
        let dmg ← ability_damage ability stats (ability.rank_at_level level)
        let (bonus, avail, fired) := burst_passive_damage passive_sources stats target ability st.avail
        .ok { totals := st.totals + dmg + bonus, avail := avail, fired := st.fired ++ fired }

/-- Python truthiness chain `combo or champion.combo_sequence or []`
selecting the action sequence (an empty or missing override falls
back to the champion combo). -/
def choose_sequence (combo : Option (List String)) (default_sequence : List String) : List String :=
  let c := combo.getD []
  if c = [] then default_sequence else c

/-- The action loop of `calculate_burst_combo`, returning the final
state (mitigation is applied afterwards). -/
def burst_combo_run (c : Champion) (level : ℤ) (items : List Item) (runes : List Rune)
    (target : ℚ) (combo : Option (List String)) : Except CalcError BurstState :=
  let stats := aggregate_stats c level items runes
  let sequence := choose_sequence combo c.combo_sequence
  let passive_sources := collect_passives items runes
  sequence.foldlM (burst_step c level stats target passive_sources)
    { totals := 0, avail := initial_avail passive_sources, fired := [] }

/-- calculators/damage.py `DamageCalculator.calculate_burst_combo`
with the `Optional` target parameters already resolved to their
effective values (the defaulting from the calculator construction is
pure glue). -/
def calculate_burst_combo (c : Champion) (level : ℤ) (items : List Item) (runes : List Rune)
    (target : ℚ) (armor : ℚ) (magic_resist : ℚ) (combo : Option (List String)) :
    Except CalcError ℚ := do
  let st ← burst_combo_run c level items runes target combo
  pure (st.totals.scaled_total armor magic_resist)

/-- calculators/damage.py `DamageCalculator._sustained_passive_damage`
(the `ability` parameter is accepted but unused, as in the source).
A `spell_burst` passive reads its cooldown with the window duration as
the dict default, procs `min(casts, casts_in_duration(cooldown,
duration))` times when that cooldown is positive and `casts` times
otherwise; a `dot_percent_max_health` passive scales linearly with
`casts`. -/
def sustained_passive_damage (passives : List (String × ItemPassive)) (stats : Stats)
    (target_health : ℚ) (ability : Ability) (casts : ℤ) (duration : ℚ) : DamageComponents :=
  passives.foldl
    (fun bonus kp =>
      let passive := kp.2
      if passive.type = "spell_burst" then
        let cooldown := passive.cooldown.getD duration
        let procs : ℤ :=
          if 0 < cooldown then min casts (casts_in_duration (.fin cooldown) duration) else casts
        let amount := (procs : ℚ) * passive_spell_burst_damage passive stats
        let damage_type := passive.damage_type.getD "magic"
        bonus + components_for_damage amount damage_type
      else if passive.type = "dot_percent_max_health" then
        let amount := (casts : ℚ) * passive.percent.getD 0 * target_health
        let damage_type := passive.damage_type.getD "magic"
        bonus + components_for_damage amount damage_type
      else bonus)
    0

/-- calculators/damage.py `DamageCalculator._sustained_auto_damage`. -/
def sustained_auto_damage (stats : Stats) (passives : List (String × ItemPassive))
    (duration : ℚ) : DamageComponents :=
  let attacks_per_second := stats "attack_speed"
  if attacks_per_second ≤ 0 ∨ duration ≤ 0 then 0
  else (auto_attack_damage stats passives).scaled (attacks_per_second * duration)

/-- One iteration of the ability loop of `calculate_sustained_dps`.
`champion.ability_rank(ability_key, level)` re-reads the ability dict
at the same key, which yields the iterated ability itself because
Python dict keys are unique. -/
def sustained_step (level : ℤ) (stats : Stats) (target : ℚ)
    (passive_sources : List (String × ItemPassive)) (duration : ℚ) (ability_haste : ℚ)
    (totals : DamageComponents) (entry : String × Ability) : Except CalcError DamageComponents := do
  let ability := entry.2
  let rank := ability.rank_at_level level
  if rank ≤ 0 then pure totals
  else do
    let base_cooldown ← ability.cooldown_at_rank rank
    if base_cooldown.isInf then pure totals
    else
      let effective_cooldown := apply_ability_haste base_cooldown.toRat ability_haste
      let casts := casts_in_duration (.fin effective_cooldown) duration
      if casts ≤ 0 then pure totals
      else do
        let dmg ← ability_damage ability stats rank
        pure (totals + dmg.scaled (casts : ℚ)
          + sustained_passive_damage passive_sources stats target ability casts duration)

/-- calculators/damage.py `DamageCalculator.calculate_sustained_dps`
with the `Optional` target parameters already resolved. -/
def calculate_sustained_dps (c : Champion) (level : ℤ) (items : List Item) (runes : List Rune)
    (duration : ℚ) (target : ℚ) (armor : ℚ) (magic_resist : ℚ) : Except CalcError ℚ := do
  let stats := aggregate_stats c level items runes
  let ability_haste := stats "ability_haste"
  let passive_sources := collect_passives items runes
  let totals ← c.abilities.foldlM
    (sustained_step level stats target passive_sources duration ability_haste) 0
  let totals := totals + sustained_auto_damage stats passive_sources duration
  let total_damage := totals.scaled_total armor magic_resist
  pure (if 0 < duration then total_damage / duration else 0)

/-- calculators/damage.py `BuildRecommendation`. -/
structure BuildRecommendation where
  items : List String
  rune : Option String
  metric_value : ℚ
deriving DecidableEq

/-- `itertools.combinations`: all size-`k` subsequences of the pool in
the order itertools emits them (lexicographic in pool positions). -/
def combinations {α : Type} : ℕ → List α → List (List α)
  | 0, _ => [[]]
  | _ + 1, [] => []
  | k + 1, x :: xs => (combinations k xs).map (x :: ·) ++ combinations (k + 1) xs

/-- calculators/damage.py `DamageCalculator._prepare_rune_pool` for a
calculator configured without a rune repository: a missing or empty
pool becomes the single no-rune sentinel. -/
def prepare_rune_pool (rune_pool : Option (List Rune)) : List (Option Rune) :=
  let runes := rune_pool.getD []
  if runes = [] then [none] else runes.map some

/-- Metric dispatch inside the scoring loop of `find_best_builds`: an
unrecognised metric raises `ValueError` as soon as it is evaluated. -/
def eval_metric (metric : String) (c : Champion) (level : ℤ) (combo_items : List Item)
    (rune_list : List Rune) (duration : ℚ) (target : ℚ) (armor : ℚ) (magic_resist : ℚ) :
    Except CalcError ℚ :=
  if metric = "burst" then
    calculate_burst_combo c level combo_items rune_list target armor magic_resist none
  else if metric = "dps" then
    calculate_sustained_dps c level combo_items rune_list duration target armor magic_resist
  else .error (.valueError ("Unsupported metric " ++ metric))

/-- The inner rune loop of `find_best_builds`: fold over the prepared
rune pool keeping the strictly best score (`none` plays the role of
the `float("-inf")` sentinel, below every rational score). -/
def best_rune_score (metric : String) (c : Champion) (level : ℤ) (combo_items : List Item)
    (runes : List (Option Rune)) (duration : ℚ) (target : ℚ) (armor : ℚ) (magic_resist : ℚ) :
    Except CalcError (Option (ℚ × Option String)) :=
  runes.foldlM
    (fun best rune => do
      let rune_list : List Rune := match rune with | some r => [r] | none => []
      let score ← eval_metric metric c level combo_items rune_list duration target armor magic_resist
      pure (match best with
        | none => some (score, rune.map Rune.name)
        | some (best_value, best_rune_name) =>
          if best_value < score then some (score, rune.map Rune.name)
          else some (best_value, best_rune_name)))
    none

/-- calculators/damage.py `DamageCalculator.find_best_builds`: score
every combination against every prepared rune, keep each
combination's best rune, sort descending by metric value (Python
`list.sort` is stable; `mergeSort` with the same non-strict
comparison matches it) and return the top `top_n`. -/
def score_step (metric : String) (c : Champion) (level : ℤ) (runes : List (Option Rune))
    (duration : ℚ) (target : ℚ) (armor : ℚ) (magic_resist : ℚ)
    (scores : List BuildRecommendation) (combo_items : List Item) :
    Except CalcError (List BuildRecommendation) := do
  let names := combo_items.map Item.name
  let best ← best_rune_score metric c level combo_items runes duration target armor magic_resist
  pure (match best with
    | some (best_value, best_rune_name) =>
      scores ++ [{ items := names, rune := best_rune_name, metric_value := best_value }]
    | none => scores)

def find_best_builds (c : Champion) (level : ℤ) (item_pool : List Item) (build_size : ℕ)
    (metric : String) (top_n : ℕ) (duration : ℚ) (target : ℚ) (armor : ℚ)
    (magic_resist : ℚ) (rune_pool : Option (List Rune)) :
    Except CalcError (List BuildRecommendation) := do
  let runes := prepare_rune_pool rune_pool
  let scores ← (combinations build_size item_pool).foldlM
    (score_step metric c level runes duration target armor magic_resist)
    ([] : List BuildRecommendation)
  pure ((scores.mergeSort (fun a b => decide (b.metric_value ≤ a.metric_value))).take top_n)

/-- Spec-side statement of the mitigation rule, written from the spec
wording: physical and magic subtotals are divided by a resistance
factor, `amount * 100/(100+resistance)` for nonnegative resistance and
`amount * (2 - 100/(100-resistance))` for negative resistance; a
non-positive subtotal contributes exactly zero. -/
def mitigation_rule_spec (amount : ℚ) (resistance : ℚ) : ℚ :=
  if amount ≤ 0 then 0
  else if 0 ≤ resistance then amount * 100 / (100 + resistance)
  else amount * (2 - 100 / (100 - resistance))

lemma apply_resistance_eq_spec (amount resistance : ℚ) :
    DamageComponents.apply_resistance amount resistance = mitigation_rule_spec amount resistance := by
  unfold DamageComponents.apply_resistance mitigation_rule_spec
  split_ifs <;> ring

/-- C1: for every `DamageComponents` value and all target resistances,
`scaled_total` is the sum of the three per-subtotal contributions of
the spec mitigation rule: physical and magic are divided by their
resistance factor (`100/(100+r)` for `r >= 0`, `2 - 100/(100-r)` for
`r < 0`), non-positive subtotals contribute zero, and true damage is
added unmitigated. -/
theorem claim_C1_scaled_total_is_per_subtotal_mitigation
    (d : DamageComponents) (armor magic_resist : ℚ) :
    d.scaled_total armor magic_resist
      = mitigation_rule_spec d.physical armor
        + mitigation_rule_spec d.magic magic_resist
        + d.true_damage := by
  unfold DamageComponents.scaled_total
  rw [apply_resistance_eq_spec, apply_resistance_eq_spec]

lemma apply_resistance_zero_of_nonneg {amount : ℚ} (h : 0 ≤ amount) :
    DamageComponents.apply_resistance amount 0 = amount := by
  unfold DamageComponents.apply_resistance
  split_ifs with h1 h2
  · exact (le_antisymm h1 h).symm
  · norm_num
  · norm_num at h2

/-- C8 counterexample: the mitigation identity fails for a
`DamageComponents` value with a negative physical subtotal — at zero
resistances the code clamps the negative subtotal to zero, so the
mitigated total is 0 while the raw sum is -1. -/
theorem claim_C8_counterexample :
    (DamageComponents.mk (-1) 0 0).scaled_total 0 0
      ≠ (DamageComponents.mk (-1) 0 0).physical
        + (DamageComponents.mk (-1) 0 0).magic
        + (DamageComponents.mk (-1) 0 0).true_damage := by
  norm_num [DamageComponents.scaled_total, DamageComponents.apply_resistance]

/-- C8 (amended): for every `DamageComponents` value whose physical
and magic subtotals are nonnegative, `scaled_total` at armor = 0 and
magic_resist = 0 equals the raw sum physical + magic + true of the
three subtotals. -/
theorem claim_C8_mitigation_identity_at_zero_resistances
    (d : DamageComponents) (hphys : 0 ≤ d.physical) (hmag : 0 ≤ d.magic) :
    d.scaled_total 0 0 = d.physical + d.magic + d.true_damage := by
  unfold DamageComponents.scaled_total
  rw [apply_resistance_zero_of_nonneg hphys, apply_resistance_zero_of_nonneg hmag]

/-- C8 witness: the amended identity evaluated at the concrete value
(3, 4, 5). -/
theorem claim_C8_witness :
    0 ≤ (DamageComponents.mk 3 4 5).physical
      ∧ 0 ≤ (DamageComponents.mk 3 4 5).magic
      ∧ (DamageComponents.mk 3 4 5).scaled_total 0 0
          = (DamageComponents.mk 3 4 5).physical + (DamageComponents.mk 3 4 5).magic
            + (DamageComponents.mk 3 4 5).true_damage :=
  ⟨by decide, by decide,
    claim_C8_mitigation_identity_at_zero_resistances (DamageComponents.mk 3 4 5)
      (by decide) (by decide)⟩

/-- C5 counterexample: `casts_in_duration` does not return 0 for every
infinite cooldown.  Negative infinity satisfies the Python check
`cooldown <= 0` before the `math.isinf` check is reached, so with a
negative-infinite cooldown and duration 1 the code returns 10 casts,
contradicting the claimed "returns 0 when cooldown is infinite". -/
theorem claim_C5_counterexample :
    PyFloat.isInf .ninf = true
      ∧ casts_in_duration .ninf 1 = 10
      ∧ (10 : ℤ) ≠ 0 := by
  refine ⟨rfl, ?_, by decide⟩
  norm_num [casts_in_duration, PyFloat.le0]

/-- C5 (amended): full characterisation of the cooldown/cast model.
`casts_in_duration` returns 0 when duration <= 0; returns 0 when the
cooldown is positive infinity; when the cooldown compares <= 0 (which
includes negative infinity) and duration > 0 it returns 10 casts per
second of duration (floored) with a minimum of 1; for a finite
positive cooldown and positive duration it returns
floor((duration - epsilon)/cooldown) + 1 with a minimum of 1; and the
effective cooldown is base/(1 + haste/100) when ability_haste > 0 and
unchanged otherwise. -/
theorem claim_C5_cast_model_characterisation (cooldown : PyFloat) (duration : ℚ) :
    (duration ≤ 0 → casts_in_duration cooldown duration = 0)
      ∧ casts_in_duration .inf duration = 0
      ∧ (cooldown.le0 = true → 0 < duration →
          casts_in_duration cooldown duration = max 1 ⌊duration * 10⌋)
      ∧ (∀ q : ℚ, 0 < q → 0 < duration →
          casts_in_duration (.fin q) duration = max 1 (⌊(duration - epsQ) / q⌋ + 1))
      ∧ (∀ base haste : ℚ,
          (0 < haste → apply_ability_haste base haste = base / (1 + haste / 100))
            ∧ (haste ≤ 0 → apply_ability_haste base haste = base)) := by
  refine ⟨?_, ?_, ?_, ?_, ?_⟩
  · intro hd
    unfold casts_in_duration
    cases cooldown <;> simp [PyFloat.le0, PyFloat.isInf, hd]
  · unfold casts_in_duration
    simp [PyFloat.le0, PyFloat.isInf]
  · intro hle hd
    unfold casts_in_duration
    rw [if_pos hle, if_neg (not_le.mpr hd)]
  · intro q hq hd
    unfold casts_in_duration
    rw [if_neg (by simpa [PyFloat.le0] using not_le.mpr hq)]
    rw [if_neg (by simp [PyFloat.isInf])]
    rw [if_neg (not_le.mpr hd)]
    rfl
  · intro base haste
    constructor
    · intro h
      unfold apply_ability_haste
      rw [if_neg (not_le.mpr h)]
    · intro h
      unfold apply_ability_haste
      rw [if_pos h]

/-- C5 witness: the characterisation applied at a finite positive
cooldown of 3 seconds over a 10 second window (4 casts), and ability
haste 100 halving a 6 second cooldown. -/
theorem claim_C5_witness :
    (0 < (3 : ℚ) ∧ 0 < (10 : ℚ)
        ∧ casts_in_duration (.fin 3) 10 = max 1 (⌊((10 : ℚ) - epsQ) / 3⌋ + 1))
      ∧ (0 < (100 : ℚ) ∧ apply_ability_haste 6 100 = 6 / (1 + 100 / 100)) :=
  ⟨⟨by decide, by decide,
      (claim_C5_cast_model_characterisation (.fin 3) 10).2.2.2.1 3 (by decide) (by decide)⟩,
    ⟨by decide,
      ((claim_C5_cast_model_characterisation (.fin 3) 10).2.2.2.2 6 100).1 (by decide)⟩⟩

/-- Sum of the values carried by the entries of an association list
matching a given stat name. -/
def stat_entry_sum (entries : List (String × ℚ)) (s : String) : ℚ :=
  (entries.map (fun kv => if kv.1 = s then kv.2 else 0)).sum

/-- Product of the `(1 + multiplier)` factors of all `stat_multiplier`
passives targeting the stat `s` (with a truthy target name), in a
passive list. -/
def multiplier_product (passives : List ItemPassive) (s : String) : ℚ :=
  (passives.map (fun p =>
    if p.type = "stat_multiplier" ∧ p.stat.getD "" ≠ "" ∧ p.stat.getD "" = s
    then 1 + p.multiplier.getD 0 else 1)).prod

lemma add_source_stats_apply :
    ∀ (entries : List (String × ℚ)) (st : Stats) (s : String),
      add_source_stats st entries s = st s + stat_entry_sum entries s := by
  intro entries
  induction entries with
  | nil => intro st s; simp [add_source_stats, stat_entry_sum]
  | cons kv rest ih =>
    intro st s
    unfold add_source_stats at ih ⊢
    rw [List.foldl_cons, ih]
    simp only [stat_entry_sum, List.map_cons, List.sum_cons, Stats.update]
    by_cases h : s = kv.1
    · subst h
      rw [if_pos rfl, if_pos rfl]
      ring
    · rw [if_neg h, if_neg (fun hh => h hh.symm)]
      ring

lemma foldl_add_source_stats_apply :
    ∀ (sources : List (List (String × ℚ))) (st : Stats) (s : String),
      (sources.foldl add_source_stats st) s
        = st s + (sources.map (fun e => stat_entry_sum e s)).sum := by
  intro sources
  induction sources with
  | nil => intro st s; simp
  | cons e rest ih =>
    intro st s
    rw [List.foldl_cons, ih, add_source_stats_apply]
    simp [add_assoc]

lemma additive_stats_apply (c : Champion) (level : ℤ) (items : List Item) (runes : List Rune)
    (s : String) :
    additive_stats c level items runes s
      = seed_stats c level s
        + (items.map (fun i => stat_entry_sum i.stats s)).sum
        + (runes.map (fun r => stat_entry_sum r.stats s)).sum := by
  unfold additive_stats
  rw [foldl_add_source_stats_apply]
  simp only [List.map_append, List.map_map, List.sum_append]
  rw [add_assoc]
  rfl

lemma apply_stat_multiplier_apply (st : Stats) (p : ItemPassive) (s : String) :
    apply_stat_multiplier st p s
      = st s * (if p.type = "stat_multiplier" ∧ p.stat.getD "" ≠ "" ∧ p.stat.getD "" = s
          then 1 + p.multiplier.getD 0 else 1) := by
  by_cases ht : p.type = "stat_multiplier"
  · by_cases hk : p.stat.getD "" ≠ ""
    · by_cases hs : p.stat.getD "" = s
      · simp [apply_stat_multiplier, Stats.update, ht, hk, hs]
        have hk2 : ¬ (s = "") := hs ▸ hk
        simp [hk2, Stats.update]
      · have hs2 : ¬ (s = p.stat.getD "") := fun hh => hs hh.symm
        simp [apply_stat_multiplier, Stats.update, ht, hk, hs, hs2]
    · simp [apply_stat_multiplier, Stats.update, ht, hk]
  · simp [apply_stat_multiplier, Stats.update, ht]

lemma foldl_apply_stat_multiplier_apply :
    ∀ (passives : List ItemPassive) (st : Stats) (s : String),
      (passives.foldl apply_stat_multiplier st) s = st s * multiplier_product passives s := by
  intro passives
  induction passives with
  | nil => intro st s; simp [multiplier_product]
  | cons p rest ih =>
    intro st s
    rw [List.foldl_cons, ih, apply_stat_multiplier_apply]
    unfold multiplier_product
    simp only [List.map_cons, List.prod_cons]
    ring

/-- C4: stat aggregation sums every additive item and rune
contribution onto the level-derived seed before any `stat_multiplier`
passive is applied, and the `stat_multiplier` passives (taken in
item-then-rune enumeration order) each scale the running value by
`(1 + multiplier)`, so multipliers targeting the same stat compound
multiplicatively rather than summing: for every stat name the final
value is (seed + additive contributions) times the product of the
`(1 + multiplier)` factors targeting that stat. -/
theorem claim_C4_additive_before_compounding_multipliers
    (c : Champion) (level : ℤ) (items : List Item) (runes : List Rune) (s : String) :
    aggregate_stats c level items runes s
      = (seed_stats c level s
          + (items.map (fun i => stat_entry_sum i.stats s)).sum
          + (runes.map (fun r => stat_entry_sum r.stats s)).sum)
        * multiplier_product (all_passives items runes) s := by
  unfold aggregate_stats
  rw [foldl_apply_stat_multiplier_apply, additive_stats_apply]

lemma DamageComponents.add_def (a b : DamageComponents) :
    a + b = ⟨a.physical + b.physical, a.magic + b.magic, a.true_damage + b.true_damage⟩ := rfl

lemma DamageComponents.zero_def : (0 : DamageComponents) = ⟨0, 0, 0⟩ := rfl

lemma dc_add_zero (a : DamageComponents) : a + 0 = a := by
  simp [DamageComponents.add_def, DamageComponents.zero_def]

lemma dc_zero_add (a : DamageComponents) : 0 + a = a := by
  simp [DamageComponents.add_def, DamageComponents.zero_def]

lemma dc_add_assoc (a b c : DamageComponents) : a + b + c = a + (b + c) := by
  simp [DamageComponents.add_def, add_assoc]

/-- Any fold whose body adds a per-element contribution computes the
initial value plus the sum of the contributions. -/
lemma foldl_add_of_body {α : Type} (body : DamageComponents → α → DamageComponents)
    (f : α → DamageComponents) (hbody : ∀ acc x, body acc x = acc + f x) :
    ∀ (l : List α) (init : DamageComponents),
      l.foldl body init = init + (l.map f).sum := by
  intro l
  induction l with
  | nil => intro init; simp [dc_add_zero]
  | cons x rest ih =>
    intro init
    rw [List.foldl_cons, ih, hbody]
    simp only [List.map_cons, List.sum_cons]
    rw [dc_add_assoc]

/-- Per-passive contribution of `_sustained_passive_damage`, stated
from the amended claim wording: a `spell_burst` passive procs
`min(casts, casts_in_duration(cd, duration))` times where `cd` is its
cooldown value defaulting to the window duration when the passive
sets none, and `casts` times only when that value is non-positive; a
`dot_percent_max_health` passive contributes `casts * percent *
target_health`; anything else contributes nothing. -/
def sustained_contrib_spec (p : ItemPassive) (stats : Stats) (target_health : ℚ)
    (casts : ℤ) (duration : ℚ) : DamageComponents :=
  if p.type = "spell_burst" then
    let cooldown := p.cooldown.getD duration
    let procs : ℤ :=
      if 0 < cooldown then min casts (casts_in_duration (.fin cooldown) duration) else casts
    components_for_damage ((procs : ℚ) * passive_spell_burst_damage p stats)
      (p.damage_type.getD "magic")
  else if p.type = "dot_percent_max_health" then
    components_for_damage ((casts : ℚ) * p.percent.getD 0 * target_health)
      (p.damage_type.getD "magic")
  else 0

/-- The all-zero stat map, used by concrete evaluations. -/
def zero_stats : Stats := fun _ => 0

/-- A minimal ability value, used where a function under test ignores
its ability argument. -/
def ability0 : Ability :=
  { key := "q", name := "Q", base_damage := [], scalings := [], cooldown := [], max_rank := 0,
    rank_levels := [] }

/-- A spell-burst passive with flat damage 100 and no cooldown key. -/
def sb_no_cd : ItemPassive := { type := "spell_burst", damage := some 100 }

/-- A spell-burst passive with flat damage 100 and a 3 second cooldown. -/
def sb_cd3 : ItemPassive := { type := "spell_burst", damage := some 100, cooldown := some 3 }

lemma pyLower_magic : pyLower "magic" = "magic" := by decide

/-- C2 counterexample: a `spell_burst` passive that sets no cooldown
key does not proc once per ability cast.  With flat damage 100, no
scaling, 2 ability casts and a 10 second window, the passive reads
its cooldown as the dict default `duration` = 10 > 0, so it procs
`min(2, casts_in_duration(10, 10)) = 1` time for 100 magic damage —
not the `2 * 100 = 200` the claim predicts for a passive with no
positive cooldown set. -/
theorem claim_C2_counterexample :
    (sustained_passive_damage [("k", sb_no_cd)] zero_stats 2000 ability0 2 10).magic = 100
      ∧ (2 : ℚ) * passive_spell_burst_damage sb_no_cd zero_stats = 200
      ∧ (100 : ℚ) ≠ 200 := by
  refine ⟨?_, ?_, by norm_num⟩
  · norm_num [sustained_passive_damage, passive_spell_burst_damage, components_for_damage,
      casts_in_duration, PyFloat.le0, PyFloat.isInf, PyFloat.toRat, epsQ, pyLower_magic, sb_no_cd,
      zero_stats, DamageComponents.add_def, DamageComponents.zero_def,
      show ("magic" : String) ≠ "physical" from by decide,
      show ("magic" : String) ≠ "true" from by decide]
    rfl
  · norm_num [passive_spell_burst_damage, sb_no_cd, zero_stats]

/-- C2 (amended): in the sustained path, for every ability with a
positive cast count the passive damage decomposes as the sum over the
passive sources of a per-passive contribution; a `spell_burst`
passive contributes its burst-mode per-proc amount times `procs`,
where `procs = min(ability_casts, casts_in_duration(cd, duration))`
whenever its cooldown value `cd` — read with the window duration as
the dict default when the passive sets no cooldown — is positive, and
`procs = ability_casts` (unlimited) only when that value is
non-positive. -/
theorem claim_C2_sustained_spell_burst_procs
    (passives : List (String × ItemPassive)) (stats : Stats) (target_health : ℚ)
    (ability : Ability) (casts : ℤ) (duration : ℚ) (hcasts : 0 < casts) :
    sustained_passive_damage passives stats target_health ability casts duration
      = (passives.map (fun kp =>
          sustained_contrib_spec kp.2 stats target_health casts duration)).sum := by
  unfold sustained_passive_damage
  refine (foldl_add_of_body _ _ ?_ _ _).trans (dc_zero_add _)
  intro acc kp
  by_cases h1 : kp.2.type = "spell_burst"
  · simp [h1, sustained_contrib_spec]
  · by_cases h2 : kp.2.type = "dot_percent_max_health"
    · simp [h1, h2, sustained_contrib_spec]
    · simp [h1, h2, sustained_contrib_spec, dc_add_zero]

/-- C2 witness: the decomposition applied to one cooldown-bearing
spell-burst passive at 2 casts over a 10 second window. -/
theorem claim_C2_witness :
    0 < (2 : ℤ)
      ∧ sustained_passive_damage [("k", sb_cd3)] zero_stats 2000 ability0 2 10
        = ([("k", sb_cd3)].map (fun kp => sustained_contrib_spec kp.2 zero_stats 2000 2 10)).sum :=
  ⟨by decide,
    claim_C2_sustained_spell_burst_procs [("k", sb_cd3)] zero_stats 2000 ability0 2 10 (by decide)⟩

/-- Invariant of the `burst_passive_damage` fold, relative to the
availability map `a0` at entry to the call: the fired keys are
duplicate-free, every fired key is now unavailable, availability only
ever decreases, and every fired key was available at entry. -/
def bp_acc_inv (a0 : Avail) (acc : DamageComponents × Avail × List String) : Prop :=
  acc.2.2.Nodup
    ∧ (∀ k ∈ acc.2.2, acc.2.1 k = false)
    ∧ (∀ k, acc.2.1 k = true → a0 k = true)
    ∧ (∀ k ∈ acc.2.2, a0 k = true)

lemma burst_passive_step_fire (stats : Stats) (target_health : ℚ)
    (acc : DamageComponents × Avail × List String) (kp : String × ItemPassive)
    (ht : kp.2.type = "spell_burst") (ha : acc.2.1 kp.1 = true) :
    burst_passive_step stats target_health acc kp
      = (acc.1 + components_for_damage (passive_spell_burst_damage kp.2 stats)
            (kp.2.damage_type.getD "magic"),
         acc.2.1.setFalse kp.1, acc.2.2 ++ [kp.1]) := by
  obtain ⟨b, a, f⟩ := acc
  obtain ⟨k, p⟩ := kp
  simp only [burst_passive_step]
  simp_all

lemma burst_passive_step_skip (stats : Stats) (target_health : ℚ)
    (acc : DamageComponents × Avail × List String) (kp : String × ItemPassive)
    (h : ¬(kp.2.type = "spell_burst" ∧ acc.2.1 kp.1 = true)) :
    ∃ C, burst_passive_step stats target_health acc kp = (acc.1 + C, acc.2.1, acc.2.2) := by
  obtain ⟨b, a, f⟩ := acc
  obtain ⟨k, p⟩ := kp
  simp only [burst_passive_step]
  by_cases ht : p.type = "spell_burst"
  · have ha : a k = false := by
      cases hb : a k
      · rfl
      · exact absurd ⟨ht, hb⟩ h
    by_cases hd : p.type = "dot_percent_max_health"
    · rw [ht] at hd
      exact absurd hd (by decide)
    · exact ⟨0, by simp [ht, ha, hd, dc_add_zero]⟩
  · by_cases hd : p.type = "dot_percent_max_health"
    · exact ⟨components_for_damage (p.percent.getD 0 * target_health)
        (p.damage_type.getD "magic"), by simp [ht, hd]⟩
    · exact ⟨0, by simp [ht, hd, dc_add_zero]⟩

lemma burst_passive_step_inv (stats : Stats) (target_health : ℚ) (a0 : Avail)
    (acc : DamageComponents × Avail × List String) (kp : String × ItemPassive)
    (h : bp_acc_inv a0 acc) : bp_acc_inv a0 (burst_passive_step stats target_health acc kp) := by
  obtain ⟨hnd, hff, himp, hf0⟩ := h
  by_cases hfire : kp.2.type = "spell_burst" ∧ acc.2.1 kp.1 = true
  · rw [burst_passive_step_fire stats target_health acc kp hfire.1 hfire.2]
    have hkey_not_fired : kp.1 ∉ acc.2.2 := fun hmem => by
      have hcontra := hff kp.1 hmem
      rw [hfire.2] at hcontra
      exact Bool.true_eq_false.mp hcontra
    refine ⟨?_, ?_, ?_, ?_⟩
    · rw [List.nodup_append]
      refine ⟨hnd, List.nodup_singleton _, ?_⟩
      intro k hk hkk
      have heq : k = kp.1 := by simpa using hkk
      exact hkey_not_fired (heq ▸ hk)
    · intro k hk
      rcases List.mem_append.mp hk with hk | hk
      · by_cases hke : k = kp.1
        · simp [Avail.setFalse, hke]
        · simpa [Avail.setFalse, hke] using hff k hk
      · have heq : k = kp.1 := by simpa using hk
        simp [Avail.setFalse, heq]
    · intro k hk
      by_cases hke : k = kp.1
      · simp [Avail.setFalse, hke] at hk
      · exact himp k (by simpa [Avail.setFalse, hke] using hk)
    · intro k hk
      rcases List.mem_append.mp hk with hk | hk
      · exact hf0 k hk
      · have heq : k = kp.1 := by simpa using hk
        exact heq ▸ himp kp.1 hfire.2
  · obtain ⟨C, hC⟩ := burst_passive_step_skip stats target_health acc kp hfire
    rw [hC]
    exact ⟨hnd, hff, himp, hf0⟩

lemma bp_foldl_inv (stats : Stats) (target_health : ℚ) (a0 : Avail) :
    ∀ (passives : List (String × ItemPassive)) (acc : DamageComponents × Avail × List String),
      bp_acc_inv a0 acc →
      bp_acc_inv a0 (passives.foldl (burst_passive_step stats target_health) acc) := by
  intro passives
  induction passives with
  | nil => intro acc h; simpa using h
  | cons kp rest ih =>
    intro acc h
    rw [List.foldl_cons]
    exact ih _ (burst_passive_step_inv stats target_health a0 acc kp h)

lemma burst_passive_damage_inv (passives : List (String × ItemPassive)) (stats : Stats)
    (target_health : ℚ) (ability : Ability) (avail : Avail) :
    bp_acc_inv avail (burst_passive_damage passives stats target_health ability avail) := by
  unfold burst_passive_damage
  exact bp_foldl_inv stats target_health avail passives (0, avail, [])
    ⟨List.nodup_nil, by simp, fun k h => h, by simp⟩

/-- Loop invariant of the `calculate_burst_combo` action loop: the
consumed spell-burst keys are duplicate-free and every consumed key
is unavailable in the current availability map. -/
def combo_state_inv (st : BurstState) : Prop :=
  st.fired.Nodup ∧ ∀ k ∈ st.fired, st.avail k = false

lemma burst_step_preserves_inv (c : Champion) (level : ℤ) (stats : Stats) (target : ℚ)
    (passive_sources : List (String × ItemPassive)) (st st' : BurstState) (action : String)
    (h : combo_state_inv st)
    (hstep : burst_step c level stats target passive_sources st action = .ok st') :
    combo_state_inv st' := by
  unfold burst_step at hstep
  split at hstep
  · cases hstep
    exact h
  · split at hstep
    · cases hstep
    · next ability hlk =>
      split at hstep
      · cases hstep
        exact h
      · cases hdmg : ability_damage ability stats (ability.rank_at_level level) with
        | error e =>
          rw [hdmg] at hstep
          simp only [Bind.bind, Except.bind] at hstep
          cases hstep
        | ok dmg =>
          rw [hdmg] at hstep
          simp only [Bind.bind, Except.bind] at hstep
          rcases hbp : burst_passive_damage passive_sources stats target ability st.avail
            with ⟨bonus, a2, f2⟩
          rw [hbp] at hstep
          simp only at hstep
          have hinv := burst_passive_damage_inv passive_sources stats target ability st.avail
          rw [hbp] at hinv
          obtain ⟨hnd2, hff2, himp2, hf02⟩ := hinv
          cases hstep
          constructor
          · rw [List.nodup_append]
            refine ⟨h.1, hnd2, ?_⟩
            intro k hk hk2
            have h1 : st.avail k = false := h.2 k hk
            have h2 : st.avail k = true := hf02 k hk2
            rw [h1] at h2
            exact Bool.false_eq_true.mp h2
          · intro k hk
            rcases List.mem_append.mp hk with hk | hk
            · cases hb : a2 k
              · exact hb
              · have := himp2 k hb
                rw [h.2 k hk] at this
                exact (Bool.false_eq_true.mp this).elim
            · exact hff2 k hk

/-- Propagation of an invariant through a monadic fold over `Except`. -/
lemma foldlM_except_inv {σ α : Type} (P : σ → Prop) (f : σ → α → Except CalcError σ)
    (hf : ∀ s a s', P s → f s a = .ok s' → P s') :
    ∀ (l : List α) (s s' : σ), P s → l.foldlM f s = .ok s' → P s' := by
  intro l
  induction l with
  | nil =>
    intro s s' hP hrun
    simp only [List.foldlM_nil] at hrun
    cases hrun
    exact hP
  | cons a rest ih =>
    intro s s' hP hrun
    rw [List.foldlM_cons] at hrun
    cases hstep : f s a with
    | error e =>
      rw [hstep] at hrun
      simp only [Bind.bind, Except.bind] at hrun
      cases hrun
    | ok s1 =>
      rw [hstep] at hrun
      simp only [Bind.bind, Except.bind] at hrun
      exact ih s1 s' (hf s a s1 hP hstep) hrun

lemma burst_combo_run_inv (c : Champion) (level : ℤ) (items : List Item) (runes : List Rune)
    (target : ℚ) (combo : Option (List String)) (st : BurstState)
    (h : burst_combo_run c level items runes target combo = .ok st) :
    combo_state_inv st := by
  unfold burst_combo_run at h
  refine foldlM_except_inv combo_state_inv _ ?_ _ _ _ ⟨List.nodup_nil, by simp⟩ h
  intro s a s' hP hstep
  exact burst_step_preserves_inv _ _ _ _ _ s s' a hP hstep

/-- C3: during a single burst-combo evaluation each spell-burst
source fires at most once — the list of consumed source keys of a
completed run, in firing order, contains no duplicates, so once a
qualifying ability cast consumes a source its passive contributes no
further spell-burst damage in the rest of the sequence (a consumed
key fails the availability test and its branch adds nothing). -/
theorem claim_C3_spell_burst_once_per_source (c : Champion) (level : ℤ) (items : List Item)
    (runes : List Rune) (target : ℚ) (combo : Option (List String)) (trace : List String)
    (h : (burst_combo_run c level items runes target combo).map BurstState.fired = .ok trace) :
    trace.Nodup := by
  cases hrun : burst_combo_run c level items runes target combo with
  | error e =>
    rw [hrun] at h
    simp only [Except.map] at h
    cases h
  | ok st =>
    rw [hrun] at h
    simp only [Except.map, Except.ok.injEq] at h
    rw [← h]
    exact (burst_combo_run_inv c level items runes target combo st hrun).1

/-- An item carrying a single flat-damage spell-burst passive. -/
def item_sb : Item :=
  { id := "i", name := "I", stats := [], passives := [{ type := "spell_burst", damage := some 50 }] }

/-- A one-rank magic ability unlocked at level 1. -/
def abilityQ : Ability :=
  { key := "Q", name := "Q", base_damage := [10], scalings := [], cooldown := [.fin 5],
    max_rank := 1, rank_levels := [1] }

/-- A champion whose combo casts the ability twice. -/
def champC3 : Champion :=
  { id := "c", name := "C", role := "", base_stats := fun _ => 0,
    abilities := [("Q", abilityQ)], combo_sequence := ["Q", "Q"] }

/-- C3 witness: a champion casting the same ability twice with one
spell-burst item consumes the source exactly once — the completed
trace is the single key, and it is duplicate-free. -/
theorem claim_C3_witness :
    (burst_combo_run champC3 1 [item_sb] [] 2000 none).map BurstState.fired = .ok ["item:i:0"]
      ∧ (["item:i:0"] : List String).Nodup := by
  have h : (burst_combo_run champC3 1 [item_sb] [] 2000 none).map BurstState.fired
      = .ok ["item:i:0"] := by rfl
  exact ⟨h, claim_C3_spell_burst_once_per_source champC3 1 [item_sb] [] 2000 none _ h⟩

/-- C9: spell-burst availability keys are built from entity id and
passive index, not list position, so when the items sequence contains
two items with the same id the spell-burst passive at any given index
fires at most once across both copies (the completed trace counts its
key at most once), while the additive phase of stat aggregation still
counts both copies of the item stats. -/
theorem claim_C9_duplicate_item_fires_once_but_stats_count_twice
    (c : Champion) (level : ℤ) (pre mid post : List Item) (b dup : Item) (runes : List Rune)
    (target : ℚ) (combo : Option (List String)) (idx : ℕ) (trace : List String)
    (hid : b.id = dup.id)
    (hrun : (burst_combo_run c level (pre ++ b :: mid ++ dup :: post) runes target combo).map
        BurstState.fired = .ok trace) :
    trace.count ("item:" ++ b.id ++ ":" ++ toString idx) ≤ 1
      ∧ ∀ s, additive_stats c level (pre ++ b :: mid ++ dup :: post) runes s
          = additive_stats c level (pre ++ mid ++ post) runes s
            + stat_entry_sum b.stats s + stat_entry_sum dup.stats s := by
  constructor
  · have hnd : trace.Nodup := by
      cases hres : burst_combo_run c level (pre ++ b :: mid ++ dup :: post) runes target combo with
      | error e =>
        rw [hres] at hrun
        simp only [Except.map] at hrun
        cases hrun
      | ok st =>
        rw [hres] at hrun
        simp only [Except.map, Except.ok.injEq] at hrun
        rw [← hrun]
        exact (burst_combo_run_inv c level _ runes target combo st hres).1
    exact List.nodup_iff_count_le_one.mp hnd _
  · intro s
    rw [additive_stats_apply, additive_stats_apply]
    simp only [List.map_append, List.map_cons, List.sum_append, List.sum_cons]
    ring

/-- C9 witness: with the spell-burst item duplicated the source fires
once across both copies, while the additive stat phase counts both
copies (evaluated at a named stat). -/
theorem claim_C9_witness :
    item_sb.id = item_sb.id
      ∧ (burst_combo_run champC3 1 ([] ++ item_sb :: [] ++ item_sb :: []) [] 2000 none).map
          BurstState.fired = .ok ["item:i:0"]
      ∧ (["item:i:0"] : List String).count ("item:" ++ item_sb.id ++ ":" ++ toString 0) ≤ 1
      ∧ additive_stats champC3 1 ([] ++ item_sb :: [] ++ item_sb :: []) [] "ability_power"
          = additive_stats champC3 1 ([] ++ [] ++ []) [] "ability_power"
            + stat_entry_sum item_sb.stats "ability_power"
            + stat_entry_sum item_sb.stats "ability_power" := by
  have h : (burst_combo_run champC3 1 ([] ++ item_sb :: [] ++ item_sb :: []) [] 2000 none).map
      BurstState.fired = .ok ["item:i:0"] := by rfl
  have hc := claim_C9_duplicate_item_fires_once_but_stats_count_twice champC3 1 [] [] []
    item_sb item_sb [] 2000 none 0 ["item:i:0"] rfl h
  exact ⟨rfl, h, hc.1, hc.2 "ability_power"⟩

lemma burst_step_keyError (c : Champion) (level : ℤ) (stats : Stats) (target : ℚ)
    (passive_sources : List (String × ItemPassive)) (st : BurstState) (action : String)
    (hAA : ¬ pyUpper action = "AA") (hlk : c.abilities.lookup action = none) :
    burst_step c level stats target passive_sources st action = .error (.keyError action) := by
  unfold burst_step
  rw [if_neg hAA, hlk]

lemma burst_run_not_ok (c : Champion) (level : ℤ) (stats : Stats) (target : ℚ)
    (passive_sources : List (String × ItemPassive)) (action : String)
    (hAA : ¬ pyUpper action = "AA") (hlk : c.abilities.lookup action = none) :
    ∀ (seq : List String) (st : BurstState), action ∈ seq →
      ∀ st', seq.foldlM (burst_step c level stats target passive_sources) st ≠ .ok st' := by
  intro seq
  induction seq with
  | nil =>
    intro st hmem
    cases hmem
  | cons a rest ih =>
    intro st hmem st' hrun
    rw [List.foldlM_cons] at hrun
    by_cases ha : a = action
    · subst ha
      rw [burst_step_keyError c level stats target passive_sources st a hAA hlk] at hrun
      simp only [Bind.bind, Except.bind] at hrun
      cases hrun
    · have hmem' : action ∈ rest := by
        rcases List.mem_cons.mp hmem with h | h
        · exact absurd h.symm ha
        · exact h
      cases hstep : burst_step c level stats target passive_sources st a with
      | error e =>
        rw [hstep] at hrun
        simp only [Bind.bind, Except.bind] at hrun
        cases hrun
      | ok st1 =>
        rw [hstep] at hrun
        simp only [Bind.bind, Except.bind] at hrun
        exact ih st1 hmem' st' hrun

/-- C10: a combo token that is not `"AA"` (case-insensitively) and is
not a key of the champion ability dict raises `KeyError` from the
ability lookup: processing such a token fails with `KeyError` for
every level (the lookup precedes the rank check, so the token is
never skipped via the rank-0 path), and any burst-combo call whose
sequence contains such a token returns no damage value. -/
theorem claim_C10_unknown_token_raises_keyError (c : Champion) (level : ℤ) (action : String)
    (hAA : pyUpper action ≠ "AA") (hlk : c.abilities.lookup action = none) :
    (∀ (stats : Stats) (target : ℚ) (passive_sources : List (String × ItemPassive))
        (st : BurstState),
        burst_step c level stats target passive_sources st action = .error (.keyError action))
      ∧ (∀ (items : List Item) (runes : List Rune) (target armor magic_resist : ℚ)
          (seq : List String), action ∈ seq →
          ∀ q : ℚ, calculate_burst_combo c level items runes target armor magic_resist (some seq)
            ≠ .ok q) := by
  constructor
  · intro stats target passive_sources st
    exact burst_step_keyError c level stats target passive_sources st action hAA hlk
  · intro items runes target armor magic_resist seq hmem q hok
    have hne : seq ≠ [] := by
      rintro rfl
      cases hmem
    have hseq : choose_sequence (some seq) c.combo_sequence = seq := by
      unfold choose_sequence
      simp [hne]
    unfold calculate_burst_combo at hok
    cases hrun : burst_combo_run c level items runes target (some seq) with
    | error e =>
      rw [hrun] at hok
      simp only [Bind.bind, Except.bind] at hok
      cases hok
    | ok st =>
      simp only [burst_combo_run, hseq] at hrun
      exact burst_run_not_ok c level _ target _ action hAA hlk seq _ hmem st hrun

/-- C10 witness: the token "X" is not an ability of the fixture
champion; a step on it yields `KeyError "X"` and the combo
["Q", "X"] returns no value. -/
theorem claim_C10_witness :
    pyUpper "X" ≠ "AA"
      ∧ champC3.abilities.lookup "X" = none
      ∧ burst_step champC3 1 zero_stats 2000 []
          { totals := 0, avail := fun _ => false, fired := [] } "X" = .error (.keyError "X")
      ∧ calculate_burst_combo champC3 1 [] [] 2000 0 0 (some ["Q", "X"]) ≠ .ok 0 := by
  have hAA : pyUpper "X" ≠ "AA" := by decide
  have hlk : champC3.abilities.lookup "X" = none := by rfl
  have hthm := claim_C10_unknown_token_raises_keyError champC3 1 "X" hAA hlk
  exact ⟨hAA, hlk, hthm.1 zero_stats 2000 [] _,
    hthm.2 [] [] 2000 0 0 ["Q", "X"] (by simp) 0⟩

lemma mem_combinations {α : Type} :
    ∀ (pool : List α) (k : ℕ) (combo : List α),
      combo ∈ combinations k pool → combo.length = k ∧ combo.Sublist pool := by
  intro pool
  induction pool with
  | nil =>
    intro k combo h
    cases k with
    | zero =>
      simp only [combinations, List.mem_singleton] at h
      subst h
      exact ⟨rfl, List.Sublist.refl []⟩
    | succ n => simp [combinations] at h
  | cons x xs ih =>
    intro k combo h
    cases k with
    | zero =>
      simp only [combinations, List.mem_singleton] at h
      subst h
      exact ⟨rfl, List.nil_sublist _⟩
    | succ n =>
      simp only [combinations, List.mem_append, List.mem_map] at h
      rcases h with ⟨c, hc, rfl⟩ | h
      · obtain ⟨hl, hs⟩ := ih n c hc
        exact ⟨by simp [hl], List.Sublist.cons₂ x hs⟩
      · obtain ⟨hl, hs⟩ := ih (n + 1) combo h
        exact ⟨hl, hs.cons x⟩

lemma combinations_ne_nil {α : Type} :
    ∀ (pool : List α) (k : ℕ), k ≤ pool.length → combinations k pool ≠ [] := by
  intro pool
  induction pool with
  | nil =>
    intro k h
    have : k = 0 := Nat.le_zero.mp (by simpa using h)
    subst this
    simp [combinations]
  | cons x xs ih =>
    intro k h
    cases k with
    | zero => simp [combinations]
    | succ n =>
      have hn : n ≤ xs.length := by simpa using h
      have := ih n hn
      simp only [combinations, ne_eq, List.append_eq_nil, List.map_eq_nil_iff, not_and]
      intro hmap
      exact absurd hmap this

lemma score_step_shape (metric : String) (c : Champion) (level : ℤ) (runes : List (Option Rune))
    (duration : ℚ) (target : ℚ) (armor : ℚ) (magic_resist : ℚ)
    (scores scores' : List BuildRecommendation) (combo_items : List Item)
    (h : score_step metric c level runes duration target armor magic_resist scores combo_items
      = .ok scores') :
    scores' = scores
      ∨ ∃ bv bn, scores'
          = scores ++ [{ items := combo_items.map Item.name, rune := bn, metric_value := bv }] := by
  unfold score_step at h
  cases hbest : best_rune_score metric c level combo_items runes duration target armor magic_resist
    with
  | error e =>
    rw [hbest] at h
    simp only [Bind.bind, Except.bind] at h
    cases h
  | ok best =>
    rw [hbest] at h
    simp only [Bind.bind, Except.bind] at h
    cases best with
    | none =>
      simp only [pure, Except.pure, Except.ok.injEq] at h
      exact Or.inl h.symm
    | some pair =>
      simp only [pure, Except.pure, Except.ok.injEq] at h
      exact Or.inr ⟨pair.1, pair.2, h.symm⟩

lemma score_fold_mem (metric : String) (c : Champion) (level : ℤ) (runes : List (Option Rune))
    (duration : ℚ) (target : ℚ) (armor : ℚ) (magic_resist : ℚ) :
    ∀ (combos : List (List Item)) (acc scores : List BuildRecommendation),
      combos.foldlM (score_step metric c level runes duration target armor magic_resist) acc
        = .ok scores →
      ∀ r ∈ scores, r ∈ acc ∨ ∃ combo, combo ∈ combos ∧ r.items = combo.map Item.name := by
  intro combos
  induction combos with
  | nil =>
    intro acc scores h r hr
    simp only [List.foldlM_nil] at h
    cases h
    exact Or.inl hr
  | cons co rest ih =>
    intro acc scores h r hr
    rw [List.foldlM_cons] at h
    cases hstep : score_step metric c level runes duration target armor magic_resist acc co with
    | error e =>
      rw [hstep] at h
      simp only [Bind.bind, Except.bind] at h
      cases h
    | ok acc1 =>
      rw [hstep] at h
      simp only [Bind.bind, Except.bind] at h
      rcases ih acc1 scores h r hr with hacc1 | ⟨combo, hco, hit⟩
      · rcases score_step_shape metric c level runes duration target armor magic_resist acc acc1
          co hstep with rfl | ⟨bv, bn, rfl⟩
        · exact Or.inl hacc1
        · rcases List.mem_append.mp hacc1 with hacc | hnew
          · exact Or.inl hacc
          · have : r = { items := co.map Item.name, rune := bn, metric_value := bv } := by
              simpa using hnew
            exact Or.inr ⟨co, List.mem_cons_self co rest, by rw [this]⟩
      · exact Or.inr ⟨combo, List.mem_cons_of_mem co hco, hit⟩


/-- C6 counterexample: with a pool containing the same item twice,
the single size-2 combination pairs the item with itself, so the
returned recommendation's items tuple repeats one name and is not a
tuple of distinct items.  (The statement projects to the items
tuples; the rational score is irrelevant to it.) -/
theorem claim_C6_counterexample :
    (find_best_builds champC3 1 [item_sb, item_sb] 2 "burst" 1 10 2000 0 0 none).map
        (fun l => l.map BuildRecommendation.items) = .ok [["I", "I"]]
      ∧ ¬ (["I", "I"] : List String).Nodup := by
  constructor
  · have hfold : ∃ q, (combinations 2 [item_sb, item_sb]).foldlM
        (score_step "burst" champC3 1 (prepare_rune_pool none) 10 2000 0 0)
        ([] : List BuildRecommendation)
        = .ok [{ items := ["I", "I"], rune := none, metric_value := q }] := ⟨_, rfl⟩
    obtain ⟨q, hfold⟩ := hfold
    simp only [find_best_builds, hfold, Bind.bind, Except.bind, pure, Except.pure,
      List.mergeSort_singleton, List.take, Except.map]
    rfl
  · decide

/-- C6 (amended): every successful `find_best_builds` call returns a
list sorted descending by metric value whose length is at most
`top_n`, in which every recommendation's items tuple has exactly
`build_size` entries drawn as a subsequence of the pool; the entries
are pairwise distinct whenever the pool's item names are pairwise
distinct (with duplicated pool entries a combination can repeat an
item). -/
theorem claim_C6_build_search_output_shape (c : Champion) (level : ℤ) (item_pool : List Item)
    (build_size : ℕ) (metric : String) (top_n : ℕ) (duration target armor magic_resist : ℚ)
    (rune_pool : Option (List Rune)) (res : List BuildRecommendation)
    (h : find_best_builds c level item_pool build_size metric top_n duration target armor
        magic_resist rune_pool = .ok res) :
    res.Pairwise (fun a b => b.metric_value ≤ a.metric_value)
      ∧ res.length ≤ top_n
      ∧ ∀ r ∈ res, r.items.length = build_size
          ∧ ((item_pool.map Item.name).Nodup → r.items.Nodup) := by
  simp only [find_best_builds] at h
  cases hfold : (combinations build_size item_pool).foldlM
      (score_step metric c level (prepare_rune_pool rune_pool) duration target armor magic_resist)
      ([] : List BuildRecommendation) with
  | error e =>
    rw [hfold] at h
    simp only [Bind.bind, Except.bind] at h
    cases h
  | ok scores =>
    rw [hfold] at h
    simp only [Bind.bind, Except.bind, pure, Except.pure, Except.ok.injEq] at h
    subst h
    have hsorted : (scores.mergeSort
        (fun a b => decide (b.metric_value ≤ a.metric_value))).Pairwise
        (fun a b => b.metric_value ≤ a.metric_value) := by
      have hp := @List.sorted_mergeSort BuildRecommendation
        (fun a b => decide (b.metric_value ≤ a.metric_value))
        (fun a b cc hab hbc => by
          simp only [decide_eq_true_eq] at *
          exact le_trans hbc hab)
        (fun a b => by
          simp only [Bool.or_eq_true, decide_eq_true_eq]
          exact le_total b.metric_value a.metric_value)
        scores
      exact hp.imp (fun hab => of_decide_eq_true hab)
    refine ⟨?_, ?_, ?_⟩
    · exact List.Pairwise.sublist (List.take_sublist top_n _) hsorted
    · rw [List.length_take]
      exact min_le_left _ _
    · intro r hr
      have hmem_sort : r ∈ scores.mergeSort
          (fun a b => decide (b.metric_value ≤ a.metric_value)) :=
        (List.take_sublist top_n _).subset hr
      have hmem : r ∈ scores :=
        (List.mergeSort_perm scores _).mem_iff.mp hmem_sort
      rcases score_fold_mem metric c level (prepare_rune_pool rune_pool) duration target armor
          magic_resist (combinations build_size item_pool) [] scores hfold r hmem with
        hnil | ⟨combo, hco, hit⟩
      · cases hnil
      · obtain ⟨hlen, hsub⟩ := mem_combinations item_pool build_size combo hco
        constructor
        · rw [hit, List.length_map, hlen]
        · intro hnd
          rw [hit]
          exact (hsub.map Item.name).nodup hnd

/-- C6 witness: the output-shape theorem applied to a completed
search call (with `top_n` = 0 the returned list is empty, which keeps
the concrete hypothesis kernel-checkable without evaluating rational
scores; the call still runs the whole scoring pipeline). -/
theorem claim_C6_witness :
    find_best_builds champC3 1 [item_sb] 1 "burst" 0 10 2000 0 0 none = .ok []
      ∧ (([] : List BuildRecommendation).Pairwise (fun a b => b.metric_value ≤ a.metric_value)
          ∧ ([] : List BuildRecommendation).length ≤ 0
          ∧ ∀ r ∈ ([] : List BuildRecommendation), r.items.length = 1
              ∧ (([item_sb].map Item.name).Nodup → r.items.Nodup)) := by
  have h : find_best_builds champC3 1 [item_sb] 1 "burst" 0 10 2000 0 0 none = .ok [] := by rfl
  exact ⟨h, claim_C6_build_search_output_shape champC3 1 [item_sb] 1 "burst" 0 10 2000 0 0
    none [] h⟩

/-- C7 counterexample: with an unsupported metric but an empty
combination list (build size exceeding the pool, here an empty pool)
the scoring loop never runs, so no `ValueError` is raised and the
call returns an empty result instead of failing fast. -/
theorem claim_C7_counterexample :
    find_best_builds champC3 1 [] 1 "bogus" 1 10 2000 0 0 none = .ok []
      ∧ ("bogus" : String) ≠ "burst" ∧ ("bogus" : String) ≠ "dps" := by
  refine ⟨?_, by decide, by decide⟩
  simp only [find_best_builds, combinations, List.foldlM_nil, Bind.bind, Except.bind,
    pure, Except.pure, List.mergeSort_nil, List.take_nil]

lemma prepare_rune_pool_ne_nil (rune_pool : Option (List Rune)) :
    prepare_rune_pool rune_pool ≠ [] := by
  unfold prepare_rune_pool
  by_cases h : rune_pool.getD [] = []
  · simp [h]
  · simp [h]

lemma eval_metric_unsupported (metric : String) (h1 : metric ≠ "burst") (h2 : metric ≠ "dps")
    (c : Champion) (level : ℤ) (combo_items : List Item) (rune_list : List Rune)
    (duration target armor magic_resist : ℚ) :
    eval_metric metric c level combo_items rune_list duration target armor magic_resist
      = .error (.valueError ("Unsupported metric " ++ metric)) := by
  unfold eval_metric
  rw [if_neg h1, if_neg h2]

lemma best_rune_score_unsupported (metric : String) (c : Champion) (level : ℤ)
    (combo_items : List Item) (runes : List (Option Rune)) (duration target armor magic_resist : ℚ)
    (h1 : metric ≠ "burst") (h2 : metric ≠ "dps") (hne : runes ≠ []) :
    best_rune_score metric c level combo_items runes duration target armor magic_resist
      = .error (.valueError ("Unsupported metric " ++ metric)) := by
  cases runes with
  | nil => exact absurd rfl hne
  | cons r rest =>
    unfold best_rune_score
    rw [List.foldlM_cons]
    simp only [eval_metric_unsupported metric h1 h2, Bind.bind, Except.bind]

/-- C7 (amended): a `find_best_builds` call with a metric other than
"burst" or "dps" fails fast with the unsupported-metric `ValueError`
and returns no partial results, provided at least one item
combination exists (`build_size` at most the pool size); when no
combination exists the loop body never runs and the call returns an
empty list without error. -/
theorem claim_C7_unsupported_metric_fails_fast (c : Champion) (level : ℤ)
    (item_pool : List Item) (build_size : ℕ) (metric : String) (top_n : ℕ)
    (duration target armor magic_resist : ℚ) (rune_pool : Option (List Rune))
    (h1 : metric ≠ "burst") (h2 : metric ≠ "dps") (h3 : build_size ≤ item_pool.length) :
    find_best_builds c level item_pool build_size metric top_n duration target armor
        magic_resist rune_pool
      = .error (.valueError ("Unsupported metric " ++ metric)) := by
  obtain ⟨co, rest, hcombos⟩ : ∃ co rest, combinations build_size item_pool = co :: rest := by
    cases hc : combinations build_size item_pool with
    | nil => exact absurd hc (combinations_ne_nil item_pool build_size h3)
    | cons co rest => exact ⟨co, rest, rfl⟩
  have hstep : score_step metric c level (prepare_rune_pool rune_pool) duration target armor
      magic_resist [] co = .error (.valueError ("Unsupported metric " ++ metric)) := by
    unfold score_step
    rw [best_rune_score_unsupported metric c level co (prepare_rune_pool rune_pool) duration
      target armor magic_resist h1 h2 (prepare_rune_pool_ne_nil rune_pool)]
    rfl
  simp only [find_best_builds, hcombos, List.foldlM_cons, hstep, Bind.bind, Except.bind]

/-- C7 witness: the fail-fast theorem at a concrete call with metric
"bogus" over a one-item pool. -/
theorem claim_C7_witness :
    ("bogus" : String) ≠ "burst" ∧ ("bogus" : String) ≠ "dps" ∧ 1 ≤ [item_sb].length
      ∧ find_best_builds champC3 1 [item_sb] 1 "bogus" 1 10 2000 0 0 none
          = .error (.valueError ("Unsupported metric " ++ "bogus")) :=
  ⟨by decide, by decide, by decide,
    claim_C7_unsupported_metric_fails_fast champC3 1 [item_sb] 1 "bogus" 1 10 2000 0 0 none
      (by decide) (by decide) (by decide)⟩
